import Mathlib

/-!
Verification development for the Commuter Partner map component
(the `Map` component using `google.maps` directly; the arrival-detection
state machine, marker registry and geolocation-watch lifecycle).

Embedding notes.
* Coordinates and the circle radius are modelled as rationals (the source
  uses float64; the claims are order/equality properties for which ℚ is an
  exact carrier).
* The great-circle distance function
  (`google.maps.geometry.spherical.computeDistanceBetween`) is an external
  collaborator of the component; it is a parameter `d` of the step function.
* `navigator.geolocation` is modelled as available: the arm button and its
  listener are only created inside `if (navigator.geolocation)` in the
  component, so the handler is unreachable otherwise.
* `watchPosition` is modelled by a per-process counter `nextWatchId`
  (starting at 1) supplying fresh ids, and `liveWatches` models the set of
  subscriptions live at the geolocation source.  `clearWatch` removes the id.
* The JavaScript truthiness test `if (watchId.current)` is modelled exactly:
  it holds when the handle is non-null and non-zero.
* Position updates and watch errors are callbacks of the live watch; they
  are only delivered while a watch is live (`clearWatch` stops delivery),
  which the event-validity predicate records.
-/

namespace CommuterPartner

/-- `google.maps.LatLngLiteral`: a latitude/longitude pair. -/
structure LatLng where
  lat : ℚ
  lng : ℚ
  deriving DecidableEq, Repr

/-- The data of an `AdvancedMarkerElement` the component reads:
its `title` (the POI key) and its `position`. -/
structure MarkerData where
  title : String
  pos : LatLng
  deriving DecidableEq, Repr

/-- Observable side effects emitted by the handlers. -/
inductive Effect where
  /-- `map.panTo(pos)` in `handleClick`. -/
  | panTo (p : LatLng)
  /-- `console.log("Inside handleAuxClick, the click number is ", …)`. -/
  | logAuxClick (button : Nat)
  /-- `alert("Please click on a marker to designate it.")`. -/
  | alertDesignate
  /-- `alert("You have arrived at your destination!")`. -/
  | alertArrived
  /-- `console.log("User's location has been updated to: ", …)`. -/
  | logPositionUpdate (p : LatLng)
  /-- `console.log("User's location is no longer being watched")`. -/
  | logWatchCleared
  /-- `console.error("Error in watching user's location")`. -/
  | logWatchError
  deriving DecidableEq, Repr

/-- `targetAcquiredBtn.textContent` while disarmed: "Notify Me Upon Arrival". -/
def notifyText : String := "Notify Me Upon Arrival"

/-- `targetAcquiredBtn.textContent` while armed. -/
def cancelText : String := "Cancel Notification/ Designate a Different Marker"

/-- `const RIGHT_CLICK = 2`. -/
def RIGHT_CLICK : Nat := 2

/-- `const DEFAULT_RADIUS = 800`. -/
def DEFAULT_RADIUS : ℚ := 800

/-- The mutable state of the `Map` component: the `markers` state (the
marker registry, a key→marker mapping), the `circleCenter` state, and the
refs `activeMarker`, `watchId`, `targetAcquired`, plus the arm button's
label, the circle's radius (`circleRef.current.getRadius()`), and the model
of the geolocation source (`nextWatchId`, `liveWatches`). -/
structure MachineState where
  markers : List (String × MarkerData)
  circleCenter : Option LatLng
  activeMarker : Option MarkerData
  watchId : Option Nat
  targetAcquired : Bool
  btnText : String
  radius : ℚ
  nextWatchId : Nat
  liveWatches : List Nat
  deriving DecidableEq, Repr

/-- The component's initial state: empty registry, no circle, no active
marker, no watch, disarmed, default label and radius. -/
def initState : MachineState :=
  { markers := [], circleCenter := none, activeMarker := none,
    watchId := none, targetAcquired := false, btnText := notifyText,
    radius := DEFAULT_RADIUS, nextWatchId := 1, liveWatches := [] }

/-- `markers[key]` on the registry object, modelled as association-list
lookup. -/
def getMarker : List (String × MarkerData) → String → Option MarkerData
  | [], _ => none
  | e :: t, k => if e.1 = k then some e.2 else getMarker t k

/-- `setMarkerRef(marker, key)`:
if `marker && markers[key]` return; if `!marker && !markers[key]` return;
otherwise either add the binding (`{...prev, [key]: marker}`, key known
absent by the guard) or `delete newMarkers[key]`. -/
def setMarkerRef (ms : List (String × MarkerData)) (m : Option MarkerData)
    (k : String) : List (String × MarkerData) :=
  match m with
  | some mk =>
    if (getMarker ms k).isSome then ms
    else ms ++ [(k, mk)]
  | none =>
    if (getMarker ms k).isSome then ms.filter (fun e => e.1 != k)
    else ms

/-- `handleClick(ev, clickedMarker)`: returns immediately when
`targetAcquired.current`; otherwise pans to the click position and either
activates the clicked marker (`!activeMarker.current ||
clickedMarker.title !== activeMarker.current.title`) or, re-clicking the
active marker, clears the selection and circle. -/
def handleClick (s : MachineState) (m : MarkerData) (p : LatLng) :
    MachineState × List Effect :=
  if s.targetAcquired then (s, [])
  else
    match s.activeMarker with
    | none =>
      ({ s with activeMarker := some m, circleCenter := some p }, [Effect.panTo p])
    | some a =>
      if m.title ≠ a.title then
        ({ s with activeMarker := some m, circleCenter := some p }, [Effect.panTo p])
      else
        ({ s with activeMarker := none, circleCenter := none }, [Effect.panTo p])

/-- `handleAuxClick(ev, clickedMarker)`: logs the button number, returns
when `targetAcquired.current`, and otherwise removes the marker from the
registry when the button is not `RIGHT_CLICK`. -/
def handleAuxClick (s : MachineState) (m : MarkerData) (button : Nat) :
    MachineState × List Effect :=
  if s.targetAcquired then (s, [Effect.logAuxClick button])
  else if button ≠ RIGHT_CLICK then
    ({ s with markers := setMarkerRef s.markers none m.title },
     [Effect.logAuxClick button])
  else (s, [Effect.logAuxClick button])

/-- The block `if (watchId.current) { navigator.geolocation.clearWatch(…);
watchId.current = null; console.log(…) }`, with JavaScript truthiness of
the numeric handle modelled exactly (null and 0 are falsy). -/
def clearWatchIfTruthy (s : MachineState) : MachineState × List Effect :=
  match s.watchId with
  | some h =>
    if h ≠ 0 then
      ({ s with watchId := none, liveWatches := s.liveWatches.filter (fun w => w != h) },
       [Effect.logWatchCleared])
    else (s, [])
  | none => (s, [])

/-- The shared cancellation block (lines 94-100 and 109-115 of the
component): reset the button label, clear `targetAcquired`, and clear the
watch when the handle is truthy. -/
def cancelWatchBlock (s : MachineState) : MachineState × List Effect :=
  clearWatchIfTruthy { s with btnText := notifyText, targetAcquired := false }

/-- The `watchPosition` success callback: log the update; if the distance
from the active marker's position to the update is strictly below the
circle's radius, alert arrival and run the cancellation block; otherwise
do nothing further.  The `activeMarker = none` branch is unreachable while
the watch is live (the callback only runs while armed, and arming requires
an active marker). -/
def watchCallback (d : LatLng → LatLng → ℚ) (s : MachineState) (p : LatLng) :
    MachineState × List Effect :=
  match s.activeMarker with
  | none => (s, [Effect.logPositionUpdate p])
  | some a =>
    if d a.pos p < s.radius then
      let r := cancelWatchBlock s
      (r.1, Effect.logPositionUpdate p :: Effect.alertArrived :: r.2)
    else (s, [Effect.logPositionUpdate p])

/-- `handleTargetAcquired(targetAcquiredBtn)`: with no active marker,
alert "Please click on a marker to designate it."; disarmed, set the
cancel label, set `targetAcquired`, and start a geolocation watch (fresh
handle from the source); armed, reset the label, clear the flag, and clear
the watch when the handle is truthy. -/
def handleTargetAcquired (s : MachineState) : MachineState × List Effect :=
  match s.activeMarker with
  | none => (s, [Effect.alertDesignate])
  | some _ =>
    if s.targetAcquired = false then
      ({ s with btnText := cancelText, targetAcquired := true,
                watchId := some s.nextWatchId,
                nextWatchId := s.nextWatchId + 1,
                liveWatches := s.liveWatches ++ [s.nextWatchId] }, [])
    else
      cancelWatchBlock s

/-- The discrete UI/geolocation events the component handles. -/
inductive Event where
  /-- A click on a marker; `p` is the event's `latLng`. -/
  | markerClick (m : MarkerData) (p : LatLng)
  /-- An auxclick on a marker with the given mouse button. -/
  | markerAuxClick (m : MarkerData) (button : Nat)
  /-- A click on the arm control button. -/
  | armClick
  /-- A position update delivered by the live geolocation watch. -/
  | posUpdate (p : LatLng)
  /-- An error delivered by the live geolocation watch. -/
  | geoError
  /-- A right-click on the map, adding a marker titled from the position. -/
  | mapRightClick (p : LatLng)
  /-- Registration of a predefined POI marker (the `props.pois` effect). -/
  | markerInit (m : MarkerData)
  deriving DecidableEq, Repr

/-- The marker title generated for a map right-click:
a rendering of the coordinates (`` `{lat, lng}` ``). -/
def posTitle (p : LatLng) : String :=
  "\x7b" ++ reprStr p.lat ++ ", " ++ reprStr p.lng ++ "\x7d"

/-- One step of the component: dispatch an event to its handler.
`d` is the external spherical distance function. -/
def step (d : LatLng → LatLng → ℚ) (s : MachineState) :
    Event → MachineState × List Effect
  | Event.markerClick m p => handleClick s m p
  | Event.markerAuxClick m b => handleAuxClick s m b
  | Event.armClick => handleTargetAcquired s
  | Event.posUpdate p => watchCallback d s p
  | Event.geoError => (s, [Effect.logWatchError])
  | Event.mapRightClick p =>
    let m : MarkerData := { title := posTitle p, pos := p }
    ({ s with markers := setMarkerRef s.markers (some m) m.title }, [])
  | Event.markerInit m =>
    ({ s with markers := setMarkerRef s.markers (some m) m.title }, [])

/-- Which events can occur in a state: watch callbacks (updates and
errors) are delivered only while the watch is live, i.e. while armed;
`clearWatch` stops delivery.  All UI events can always occur. -/
def ValidEvent (s : MachineState) : Event → Prop
  | Event.posUpdate _ => s.targetAcquired = true
  | Event.geoError => s.targetAcquired = true
  | _ => True

/-- States reachable from the initial state by valid events,
for a fixed distance function `d`. -/
inductive Reachable (d : LatLng → LatLng → ℚ) : MachineState → Prop
  | init : Reachable d initState
  | next {s e} : Reachable d s → ValidEvent s e → Reachable d (step d s e).1

/-- Run a list of events from a state, keeping only the state. -/
def runEvents (d : LatLng → LatLng → ℚ) (s : MachineState)
    (evs : List Event) : MachineState :=
  evs.foldl (fun t e => (step d t e).1) s

/-- An event handled by `handleClick` or `handleAuxClick`. -/
def IsMarkerClickEvent : Event → Prop
  | Event.markerClick _ _ => True
  | Event.markerAuxClick _ _ => True
  | _ => False

/-- The watch-lifecycle invariant: the process-unique id counter is
positive; a null handle means disarmed with no live subscription; a
non-null handle means armed, a positive handle, and exactly that
subscription live; arming requires an active marker; and the active
marker and circle center are null together. -/
def WatchInv (s : MachineState) : Prop :=
  1 ≤ s.nextWatchId ∧
  (s.watchId = none → s.targetAcquired = false ∧ s.liveWatches = []) ∧
  (∀ h, s.watchId = some h →
    s.targetAcquired = true ∧ 1 ≤ h ∧ s.liveWatches = [h]) ∧
  (s.targetAcquired = true → s.activeMarker ≠ none) ∧
  (s.activeMarker = none ↔ s.circleCenter = none)

/-- The spec's `SELECTED` state: active marker and circle present,
disarmed, no watch. -/
def IsSelected (s : MachineState) : Prop :=
  s.activeMarker ≠ none ∧ s.circleCenter ≠ none ∧
  s.targetAcquired = false ∧ s.watchId = none

/-- A concrete distance function for instantiations: constantly zero. -/
def d0 : LatLng → LatLng → ℚ := fun _ _ => 0

/-- A concrete distance function for instantiations: reads the second
point's latitude as the distance in meters. -/
def dLat : LatLng → LatLng → ℚ := fun _ q => q.lat

/-- A concrete POI in the spirit of the spec's scenario: key `A` near
`(33, -84)` (integer coordinates keep kernel evaluation cheap). -/
def poiA : MarkerData :=
  { title := "A", pos := { lat := 33, lng := -84 } }

/-- A second concrete marker, with a different key. -/
def poiB : MarkerData :=
  { title := "B", pos := { lat := 34, lng := -85 } }

/-- The state after clicking marker `A` from the initial state
(distance function `d0`). -/
def sSel : MachineState :=
  (step d0 initState (Event.markerClick poiA poiA.pos)).1

/-- The state after clicking marker `A` and then the arm control
(distance function `d0`): an armed state. -/
def sArm : MachineState := (step d0 sSel Event.armClick).1

/-- The state after clicking marker `A` from the initial state
(distance function `dLat`). -/
def sSelL : MachineState :=
  (step dLat initState (Event.markerClick poiA poiA.pos)).1

/-- The state after clicking marker `A` and then the arm control
(distance function `dLat`): an armed state. -/
def sArmL : MachineState := (step dLat sSelL Event.armClick).1

/-- A position exactly on the circle boundary under `dLat`
(latitude 800 = the default radius). -/
def pBoundary : LatLng := { lat := 800, lng := 0 }

/-- A position well outside the circle under `dLat` (latitude 5000). -/
def pFar : LatLng := { lat := 5000, lng := 0 }

/-- A position inside the circle under `dLat` (latitude 0). -/
def pInside : LatLng := { lat := 0, lng := 0 }

/-- The invariant holds initially. -/
theorem watchInv_init : WatchInv initState := by
  refine ⟨le_refl 1, fun _ => ⟨rfl, rfl⟩, fun h hh => by simp [initState] at hh, ?_, ?_⟩
  · intro hf; simp [initState] at hf
  · simp [initState]

/-- Each handler preserves the watch-lifecycle invariant. -/
theorem watchInv_step (d : LatLng → LatLng → ℚ) {s : MachineState} {e : Event}
    (h : WatchInv s) (hv : ValidEvent s e) : WatchInv (step d s e).1 := by
  obtain ⟨h1, h2, h3, h4, h5⟩ := h
  cases e with
  | markerClick m p =>
    simp only [step, handleClick]
    split
    · exact ⟨h1, h2, h3, h4, h5⟩
    · rename_i hta
      have hta' : s.targetAcquired = false := by
        revert hta; cases s.targetAcquired <;> simp
      split
      · exact ⟨h1, fun hw => ⟨hta', (h2 hw).2⟩, fun hdl hw => by
          have := (h3 hdl hw).1; rw [hta'] at this; exact absurd this (by simp),
          fun _ => by simp, by simp⟩
      · split
        · exact ⟨h1, fun hw => ⟨hta', (h2 hw).2⟩, fun hdl hw => by
            have := (h3 hdl hw).1; rw [hta'] at this; exact absurd this (by simp),
            fun _ => by simp, by simp⟩
        · exact ⟨h1, fun hw => ⟨hta', (h2 hw).2⟩, fun hdl hw => by
            have := (h3 hdl hw).1; rw [hta'] at this; exact absurd this (by simp),
            fun hf => by rw [hta'] at hf; exact absurd hf (by simp), by simp⟩
  | markerAuxClick m b =>
    simp only [step, handleAuxClick]
    split
    · exact ⟨h1, h2, h3, h4, h5⟩
    · split
      · exact ⟨h1, h2, h3, h4, h5⟩
      · exact ⟨h1, h2, h3, h4, h5⟩
  | armClick =>
    cases ham : s.activeMarker with
    | none =>
      simp only [step, handleTargetAcquired, ham]
      exact ⟨h1, h2, h3, h4, h5⟩
    | some a =>
      by_cases hta : s.targetAcquired = false
      · have hw : s.watchId = none := by
          cases hwc : s.watchId with
          | none => rfl
          | some h' =>
            exact absurd ((h3 h' hwc).1) (by rw [hta]; simp)
        have hl : s.liveWatches = [] := (h2 hw).2
        simp only [step, handleTargetAcquired, ham, if_pos hta]
        refine ⟨Nat.le_succ_of_le h1, by simp, fun h' hh' => ?_, fun _ => by simp,
          by simp [← h5, ham]⟩
        · simp at hh'
          subst hh'
          exact ⟨rfl, h1, by simp [hl]⟩
      · have hta' : s.targetAcquired = true := by
          revert hta; cases s.targetAcquired <;> simp
        obtain ⟨hwid, hwids⟩ : ∃ h', s.watchId = some h' := by
          cases hwc : s.watchId with
          | none => exact absurd hta' (by rw [(h2 hwc).1]; simp)
          | some h' => exact ⟨h', rfl⟩
        obtain ⟨_, hpos, hlive⟩ := h3 hwid hwids
        have hne : hwid ≠ 0 := by omega
        simp only [step, handleTargetAcquired, ham, if_neg hta,
          cancelWatchBlock, clearWatchIfTruthy, hwids, if_pos hne]
        refine ⟨h1, fun _ => ⟨rfl, by simp [hlive]⟩,
          fun h' hh' => by simp at hh', fun hf => by simp at hf,
          by simp [← h5, ham]⟩
  | posUpdate p =>
    have hta : s.targetAcquired = true := hv
    obtain ⟨hwid, hwids⟩ : ∃ h', s.watchId = some h' := by
      cases hwc : s.watchId with
      | none => exact absurd hta (by rw [(h2 hwc).1]; simp)
      | some h' => exact ⟨h', rfl⟩
    obtain ⟨_, hpos, hlive⟩ := h3 hwid hwids
    have ham : s.activeMarker ≠ none := h4 hta
    obtain ⟨a, hama⟩ : ∃ a, s.activeMarker = some a := by
      cases hac : s.activeMarker with
      | none => exact absurd hac ham
      | some a => exact ⟨a, rfl⟩
    have hne : hwid ≠ 0 := by omega
    simp only [step, watchCallback, hama]
    split
    · simp only [cancelWatchBlock, clearWatchIfTruthy, hwids, if_pos hne]
      refine ⟨h1, fun _ => ⟨rfl, by simp [hlive]⟩,
        fun h' hh' => by simp at hh', fun hf => by simp at hf,
        by simp [← h5, hama]⟩
    · exact ⟨h1, h2, h3, h4, h5⟩
  | geoError => exact ⟨h1, h2, h3, h4, h5⟩
  | mapRightClick p => exact ⟨h1, h2, h3, h4, h5⟩
  | markerInit m => exact ⟨h1, h2, h3, h4, h5⟩

/-- Every reachable state satisfies the watch-lifecycle invariant. -/
theorem reachable_watchInv {d : LatLng → LatLng → ℚ} {s : MachineState}
    (h : Reachable d s) : WatchInv s := by
  induction h with
  | init => exact watchInv_init
  | next hr hv ih => exact watchInv_step _ ih hv

/-- In a reachable armed state the watch handle is a positive id and the
only live subscription. -/
theorem armed_watch_facts {d : LatLng → LatLng → ℚ} {s : MachineState}
    (hr : Reachable d s) (ht : s.targetAcquired = true) :
    ∃ h, s.watchId = some h ∧ h ≠ 0 ∧ s.liveWatches = [h] := by
  obtain ⟨_, h2, h3, _, _⟩ := reachable_watchInv hr
  cases hwc : s.watchId with
  | none => exact absurd ht (by rw [(h2 hwc).1]; simp)
  | some h' =>
    obtain ⟨_, hpos, hlive⟩ := h3 h' hwc
    exact ⟨h', rfl, by omega, hlive⟩

/-- The watch callback on a far update (distance not below the radius)
returns the state unchanged with only the debug log. -/
theorem watchCallback_far {d : LatLng → LatLng → ℚ} {s : MachineState}
    {a : MarkerData} {p : LatLng} (ha : s.activeMarker = some a)
    (hfar : ¬ d a.pos p < s.radius) :
    step d s (Event.posUpdate p) = (s, [Effect.logPositionUpdate p]) := by
  simp [step, watchCallback, ha, hfar]

/-- The watch callback on a near update (distance strictly below the
radius), with a positive handle live: alert, disarm, clear the watch. -/
theorem watchCallback_near {d : LatLng → LatLng → ℚ} {s : MachineState}
    {a : MarkerData} {p : LatLng} {hw : ℕ} (ha : s.activeMarker = some a)
    (hnear : d a.pos p < s.radius) (hwid : s.watchId = some hw)
    (hne : hw ≠ 0) (hlive : s.liveWatches = [hw]) :
    step d s (Event.posUpdate p) =
      ({ s with btnText := notifyText, targetAcquired := false,
                watchId := none, liveWatches := [] },
       [Effect.logPositionUpdate p, Effect.alertArrived,
        Effect.logWatchCleared]) := by
  simp [step, watchCallback, ha, hnear, cancelWatchBlock, clearWatchIfTruthy,
    hwid, hne, hlive]

/-- C1: while armed, a position update whose distance to the active
marker's stored location is strictly below the circle's radius cancels the
watch (handle cleared to null), clears the arming flag, emits the arrival
alert, and leaves the machine in the SELECTED state. -/
theorem arrival_transition (d : LatLng → LatLng → ℚ) (s : MachineState)
    (a : MarkerData) (p : LatLng) (hr : Reachable d s)
    (ht : s.targetAcquired = true) (ha : s.activeMarker = some a)
    (hd : d a.pos p < s.radius) :
    (step d s (Event.posUpdate p)).1.watchId = none ∧
    (step d s (Event.posUpdate p)).1.targetAcquired = false ∧
    Effect.alertArrived ∈ (step d s (Event.posUpdate p)).2 ∧
    (step d s (Event.posUpdate p)).1.activeMarker = s.activeMarker ∧
    (step d s (Event.posUpdate p)).1.circleCenter = s.circleCenter ∧
    IsSelected (step d s (Event.posUpdate p)).1 := by
  obtain ⟨hw, hwid, hne, hlive⟩ := armed_watch_facts hr ht
  have hcc : s.circleCenter ≠ none := by
    obtain ⟨_, _, _, _, h5⟩ := reachable_watchInv hr
    intro hc
    simp [h5.mpr hc] at ha
  rw [watchCallback_near ha hd hwid hne hlive]
  refine ⟨rfl, rfl, by simp, rfl, rfl, ?_, ?_, rfl, rfl⟩
  · show s.activeMarker ≠ none
    rw [ha]; simp
  · exact hcc

/-- C1 witness: in the concrete armed state at POI `A`, an update at the
marker's own position (distance 0 < 800) disarms, clears the watch,
alerts, and ends SELECTED. -/
theorem arrival_transition_witness :
    sArm.targetAcquired = true ∧
    ((step d0 sArm (Event.posUpdate poiA.pos)).1.watchId = none ∧
     (step d0 sArm (Event.posUpdate poiA.pos)).1.targetAcquired = false ∧
     Effect.alertArrived ∈ (step d0 sArm (Event.posUpdate poiA.pos)).2 ∧
     (step d0 sArm (Event.posUpdate poiA.pos)).1.activeMarker = sArm.activeMarker ∧
     (step d0 sArm (Event.posUpdate poiA.pos)).1.circleCenter = sArm.circleCenter ∧
     IsSelected (step d0 sArm (Event.posUpdate poiA.pos)).1) :=
  ⟨by decide,
   arrival_transition d0 sArm poiA poiA.pos
     (Reachable.next (Reachable.next Reachable.init True.intro) True.intro)
     (by decide) (by decide) (by decide)⟩

/-- C8: while armed, a position update at distance at least the radius
changes nothing: the step returns the state unchanged and the only side
effect is the debug log (no alert). -/
theorem far_update_frame (d : LatLng → LatLng → ℚ) (s : MachineState)
    (a : MarkerData) (p : LatLng) (_ht : s.targetAcquired = true)
    (ha : s.activeMarker = some a) (hfar : s.radius ≤ d a.pos p) :
    step d s (Event.posUpdate p) = (s, [Effect.logPositionUpdate p]) :=
  watchCallback_far ha (not_lt.mpr hfar)

/-- C8 witness: in the concrete armed state, an update 5000 m out
(radius 800) leaves the state unchanged with only the debug log. -/
theorem far_update_frame_witness :
    sArmL.targetAcquired = true ∧
    step dLat sArmL (Event.posUpdate pFar) =
      (sArmL, [Effect.logPositionUpdate pFar]) :=
  ⟨by decide,
   far_update_frame dLat sArmL poiA pFar (by decide) (by decide) (by decide)⟩

/-- C2: the arrival test is strict: at distance exactly the radius the
update changes nothing and no alert fires; at distance radius − ε with
ε > 0 the alert fires and the machine disarms. -/
theorem strict_boundary (d : LatLng → LatLng → ℚ) (s : MachineState)
    (a : MarkerData) (hr : Reachable d s) (ht : s.targetAcquired = true)
    (ha : s.activeMarker = some a) :
    (∀ p, d a.pos p = s.radius →
      step d s (Event.posUpdate p) = (s, [Effect.logPositionUpdate p]) ∧
      Effect.alertArrived ∉ (step d s (Event.posUpdate p)).2) ∧
    (∀ p ε, 0 < ε → d a.pos p = s.radius - ε →
      Effect.alertArrived ∈ (step d s (Event.posUpdate p)).2 ∧
      (step d s (Event.posUpdate p)).1.targetAcquired = false ∧
      (step d s (Event.posUpdate p)).1.watchId = none) := by
  obtain ⟨hw, hwid, hne, hlive⟩ := armed_watch_facts hr ht
  constructor
  · intro p hp
    have heq : step d s (Event.posUpdate p) = (s, [Effect.logPositionUpdate p]) :=
      watchCallback_far ha (by rw [hp]; exact lt_irrefl _)
    exact ⟨heq, by rw [heq]; simp⟩
  · intro p ε hε hp
    have hnear : d a.pos p < s.radius := by rw [hp]; linarith
    rw [watchCallback_near ha hnear hwid hne hlive]
    exact ⟨by simp, rfl, rfl⟩

/-- C2 witness: in the concrete armed state (radius 800, distance = the
update's latitude), an update at distance exactly 800 changes nothing,
and one at distance 0 = 800 − 800 fires the alert. -/
theorem strict_boundary_witness :
    (step dLat sArmL (Event.posUpdate pBoundary) =
      (sArmL, [Effect.logPositionUpdate pBoundary])) ∧
    Effect.alertArrived ∈ (step dLat sArmL (Event.posUpdate pInside)).2 := by
  have hr : Reachable dLat sArmL :=
    Reachable.next (Reachable.next Reachable.init True.intro) True.intro
  exact ⟨((strict_boundary dLat sArmL poiA hr (by decide) (by decide)).1
            pBoundary (by decide)).1,
         ((strict_boundary dLat sArmL poiA hr (by decide) (by decide)).2
            pInside 800 (by norm_num)
            (by rw [show dLat poiA.pos pInside = 0 from rfl,
                    show sArmL.radius = 800 from by decide]
                norm_num)).1⟩

/-- C3: clicking the arm control with no active selection is rejected
with the user-facing prompt and mutates nothing: the step returns the
state unchanged with only the prompt alert, and the arming flag was (and
so stays) false. -/
theorem arm_without_selection (d : LatLng → LatLng → ℚ) (s : MachineState)
    (hr : Reachable d s) (ha : s.activeMarker = none) :
    s.targetAcquired = false ∧
    step d s Event.armClick = (s, [Effect.alertDesignate]) := by
  obtain ⟨_, _, _, h4, _⟩ := reachable_watchInv hr
  have hf : s.targetAcquired = false := by
    cases hb : s.targetAcquired
    · rfl
    · exact absurd ha (h4 hb)
  exact ⟨hf, by simp [step, handleTargetAcquired, ha]⟩

/-- C3 witness: in the initial state (no active marker), the arm click is
rejected with the prompt and the state is unchanged. -/
theorem arm_without_selection_witness :
    initState.targetAcquired = false ∧
    step d0 initState Event.armClick = (initState, [Effect.alertDesignate]) :=
  arm_without_selection d0 initState Reachable.init rfl

/-- C4: clicking the currently active marker clears the active selection
and the circle center; hence, from an idle state, clicking the same
marker twice returns exactly the starting state. -/
theorem toggle_roundtrip (d : LatLng → LatLng → ℚ) (s : MachineState)
    (A : MarkerData) (p p' : LatLng) (hflag : s.targetAcquired = false) :
    (s.activeMarker = some A →
      (step d s (Event.markerClick A p)).1.activeMarker = none ∧
      (step d s (Event.markerClick A p)).1.circleCenter = none) ∧
    (s.activeMarker = none → s.circleCenter = none →
      runEvents d s [Event.markerClick A p, Event.markerClick A p'] = s) := by
  constructor
  · intro ha
    simp [step, handleClick, hflag, ha]
  · intro ha hc
    obtain ⟨ms, cc, am, wi, ta, bt, rad, nw, lw⟩ := s
    simp only at ha hc hflag
    subst ha; subst hc; subst hflag
    simp [runEvents, step, handleClick]

/-- C4 witness: from the initial state, clicking marker `A` twice (at its
position) returns exactly the initial state. -/
theorem toggle_roundtrip_witness :
    runEvents d0 initState
      [Event.markerClick poiA poiA.pos, Event.markerClick poiA poiA.pos] =
      initState :=
  (toggle_roundtrip d0 initState poiA poiA.pos poiA.pos rfl).2 rfl rfl

/-- C5: for markers with distinct keys, clicking `A` then `B` leaves the
active selection equal to `B` with the circle at `B`'s click position (a
single exclusive slot), and from a state with no selection the first
click directly selects `A` (no intermediate empty selection). -/
theorem exclusive_selection (d : LatLng → LatLng → ℚ) (s : MachineState)
    (A B : MarkerData) (pA pB : LatLng)
    (hflag : s.targetAcquired = false) (hAB : A.title ≠ B.title) :
    (runEvents d s [Event.markerClick A pA, Event.markerClick B pB]).activeMarker
        = some B ∧
    (runEvents d s [Event.markerClick A pA, Event.markerClick B pB]).circleCenter
        = some pB ∧
    (s.activeMarker = none →
      (step d s (Event.markerClick A pA)).1.activeMarker = some A) := by
  have hBA : B.title ≠ A.title := fun h => hAB h.symm
  refine ⟨?_, ?_, ?_⟩
  · cases ham : s.activeMarker with
    | none => simp [runEvents, step, handleClick, hflag, ham, hBA]
    | some a =>
      by_cases hAa : A.title = a.title
      · simp [runEvents, step, handleClick, hflag, ham, hAa]
      · simp [runEvents, step, handleClick, hflag, ham, hAa, hBA]
  · cases ham : s.activeMarker with
    | none => simp [runEvents, step, handleClick, hflag, ham, hBA]
    | some a =>
      by_cases hAa : A.title = a.title
      · simp [runEvents, step, handleClick, hflag, ham, hAa]
      · simp [runEvents, step, handleClick, hflag, ham, hAa, hBA]
  · intro ha
    simp [step, handleClick, hflag, ha]

/-- C5 witness: from the initial state, clicking `A` then `B` leaves the
selection equal to `B` and the circle at `B`'s position. -/
theorem exclusive_selection_witness :
    (runEvents d0 initState
       [Event.markerClick poiA poiA.pos, Event.markerClick poiB poiB.pos]).activeMarker
      = some poiB ∧
    (runEvents d0 initState
       [Event.markerClick poiA poiA.pos, Event.markerClick poiB poiB.pos]).circleCenter
      = some poiB.pos :=
  ⟨(exclusive_selection d0 initState poiA poiB poiA.pos poiB.pos rfl
      (by decide)).1,
   (exclusive_selection d0 initState poiA poiB poiA.pos poiB.pos rfl
      (by decide)).2.1⟩

/-- C6: the cancellation block is idempotent and safe on a null handle:
after one cancellation the flag is false and the handle null, and a
second cancellation is a pure no-op with no effects.  (The block is a
total function of the state: no branch can throw.) -/
theorem cancel_idempotent (d : LatLng → LatLng → ℚ) (s : MachineState)
    (hr : Reachable d s) :
    (cancelWatchBlock s).1.targetAcquired = false ∧
    (cancelWatchBlock s).1.watchId = none ∧
    cancelWatchBlock (cancelWatchBlock s).1 = ((cancelWatchBlock s).1, []) := by
  obtain ⟨_, _, h3, _, _⟩ := reachable_watchInv hr
  cases hwc : s.watchId with
  | none =>
    have heq : cancelWatchBlock s =
        ({ s with btnText := notifyText, targetAcquired := false }, []) := by
      simp [cancelWatchBlock, clearWatchIfTruthy, hwc]
    rw [heq]
    exact ⟨rfl, hwc, by simp [cancelWatchBlock, clearWatchIfTruthy, hwc]⟩
  | some h' =>
    have hne : h' ≠ 0 := by have := (h3 h' hwc).2.1; omega
    have heq : cancelWatchBlock s =
        ({ s with btnText := notifyText, targetAcquired := false,
                  watchId := none,
                  liveWatches := s.liveWatches.filter (fun w => w != h') },
         [Effect.logWatchCleared]) := by
      simp [cancelWatchBlock, clearWatchIfTruthy, hwc, hne]
    rw [heq]
    exact ⟨rfl, rfl, by simp [cancelWatchBlock, clearWatchIfTruthy]⟩

/-- C6 witness: in the concrete armed state, cancelling once leaves the
flag false and the handle null, and cancelling again is a no-op. -/
theorem cancel_idempotent_witness :
    (cancelWatchBlock sArm).1.targetAcquired = false ∧
    (cancelWatchBlock sArm).1.watchId = none ∧
    cancelWatchBlock (cancelWatchBlock sArm).1 =
      ((cancelWatchBlock sArm).1, []) :=
  cancel_idempotent d0 sArm
    (Reachable.next (Reachable.next Reachable.init True.intro) True.intro)

/-- C7: in every reachable state the watch handle is non-null exactly
when the arming flag is true, and at most one watch is live at the
geolocation source. -/
theorem watch_iff_armed (d : LatLng → LatLng → ℚ) (s : MachineState)
    (hr : Reachable d s) :
    ((s.watchId ≠ none) ↔ s.targetAcquired = true) ∧
    s.liveWatches.length ≤ 1 := by
  obtain ⟨_, h2, h3, _, _⟩ := reachable_watchInv hr
  cases hwc : s.watchId with
  | none =>
    refine ⟨⟨fun h => absurd rfl h, fun h => ?_⟩, ?_⟩
    · rw [(h2 hwc).1] at h; cases h
    · rw [(h2 hwc).2]; simp
  | some h' =>
    obtain ⟨hta, _, hlive⟩ := h3 h' hwc
    exact ⟨⟨fun _ => hta, fun _ => by simp⟩, by simp [hlive]⟩

/-- C7 witness: the invariant holds in the concrete armed state. -/
theorem watch_iff_armed_witness :
    ((sArm.watchId ≠ none) ↔ sArm.targetAcquired = true) ∧
    sArm.liveWatches.length ≤ 1 :=
  watch_iff_armed d0 sArm
    (Reachable.next (Reachable.next Reachable.init True.intro) True.intro)

/-- C10: while armed, marker clicks and auxclicks are ignored: a click
returns the state unchanged with no effects, an auxclick leaves the
state unchanged, and any sequence of such events leaves the state
unchanged. -/
theorem armed_ignores_clicks (d : LatLng → LatLng → ℚ) (s : MachineState)
    (ht : s.targetAcquired = true) :
    (∀ m p, step d s (Event.markerClick m p) = (s, [])) ∧
    (∀ m b, (step d s (Event.markerAuxClick m b)).1 = s) ∧
    (∀ evs, (∀ e ∈ evs, IsMarkerClickEvent e) → runEvents d s evs = s) := by
  have hclick : ∀ m p, step d s (Event.markerClick m p) = (s, []) := by
    intro m p; simp [step, handleClick, ht]
  have haux : ∀ m b, (step d s (Event.markerAuxClick m b)).1 = s := by
    intro m b; simp [step, handleAuxClick, ht]
  refine ⟨hclick, haux, ?_⟩
  intro evs
  induction evs with
  | nil => intro _; rfl
  | cons e t ih =>
    intro hall
    have he := hall e (List.mem_cons_self e t)
    have hstep : (step d s e).1 = s := by
      cases e with
      | markerClick m p => rw [hclick m p]
      | markerAuxClick m b => exact haux m b
      | armClick => exact he.elim
      | posUpdate p => exact he.elim
      | geoError => exact he.elim
      | mapRightClick p => exact he.elim
      | markerInit m => exact he.elim
    show runEvents d s (e :: t) = s
    simp only [runEvents, List.foldl] at ih ⊢
    rw [hstep]
    exact ih (fun e' he' => hall e' (List.mem_cons_of_mem _ he'))

/-- C10 witness: in the concrete armed state, a click and an auxclick on
marker `B` leave the state unchanged, as does the two-event sequence. -/
theorem armed_ignores_clicks_witness :
    sArm.targetAcquired = true ∧
    step d0 sArm (Event.markerClick poiB poiB.pos) = (sArm, []) ∧
    (step d0 sArm (Event.markerAuxClick poiB 0)).1 = sArm ∧
    runEvents d0 sArm
      [Event.markerClick poiB poiB.pos, Event.markerAuxClick poiB 0] = sArm :=
  ⟨by decide,
   (armed_ignores_clicks d0 sArm (by decide)).1 poiB poiB.pos,
   (armed_ignores_clicks d0 sArm (by decide)).2.1 poiB 0,
   (armed_ignores_clicks d0 sArm (by decide)).2.2 _ (by
     intro e he
     simp only [List.mem_cons, List.not_mem_nil, or_false] at he
     rcases he with h | h
     · rw [h]; exact trivial
     · rw [h]; exact trivial)⟩

/-- Lookup after appending a fresh binding finds the appended marker
when the key is not already bound. -/
theorem getMarker_append_self {ms : List (String × MarkerData)} {k : String}
    (h : getMarker ms k = none) (mk : MarkerData) :
    getMarker (ms ++ [(k, mk)]) k = some mk := by
  induction ms with
  | nil => simp [getMarker]
  | cons e t ih =>
    by_cases he : e.1 = k
    · simp [getMarker, he] at h
    · simp only [getMarker, he, if_neg he, List.cons_append] at h ⊢
      exact ih h

/-- Lookup of a different key is unchanged by appending a binding. -/
theorem getMarker_append_other (ms : List (String × MarkerData))
    (k k' : String) (hne : k' ≠ k) (mk : MarkerData) :
    getMarker (ms ++ [(k, mk)]) k' = getMarker ms k' := by
  induction ms with
  | nil =>
    simp only [List.nil_append, getMarker]
    rw [if_neg (fun h => hne h.symm)]
  | cons e t ih =>
    by_cases he : e.1 = k'
    · simp [getMarker, he]
    · simp only [List.cons_append, getMarker, if_neg he]
      exact ih

/-- Lookup of the deleted key after filtering it out fails. -/
theorem getMarker_filter_self (ms : List (String × MarkerData)) (k : String) :
    getMarker (ms.filter (fun e => e.1 != k)) k = none := by
  induction ms with
  | nil => simp [getMarker]
  | cons e t ih =>
    by_cases he : e.1 = k
    · simp [List.filter_cons, he, ih]
    · simp [List.filter_cons, bne_iff_ne, he, getMarker, ih]

/-- Lookup of a different key is unchanged by deleting a key. -/
theorem getMarker_filter_other (ms : List (String × MarkerData))
    (k k' : String) (hne : k' ≠ k) :
    getMarker (ms.filter (fun e => e.1 != k)) k' = getMarker ms k' := by
  induction ms with
  | nil => simp
  | cons e t ih =>
    by_cases he : e.1 = k
    · have he' : e.1 ≠ k' := by rw [he]; exact fun h => hne h.symm
      simp [List.filter_cons, he, getMarker, he', ih, Ne.symm hne]
    · by_cases he' : e.1 = k'
      · simp [List.filter_cons, bne_iff_ne, he, getMarker, he', hne]
      · simp [List.filter_cons, bne_iff_ne, he, getMarker, he', ih]

/-- A key is unbound exactly when lookup fails. -/
theorem getMarker_eq_none_iff (ms : List (String × MarkerData)) (k : String) :
    getMarker ms k = none ↔ k ∉ ms.map Prod.fst := by
  induction ms with
  | nil => simp [getMarker]
  | cons e t ih =>
    by_cases he : e.1 = k
    · simp [getMarker, he]
    · simp [getMarker, he, ih, Ne.symm he]

/-- C9: the registry update `setMarkerRef` inserts on an absent key,
is a no-op upserting a present key or removing an absent one, deletes
exactly the given key on removal, and preserves key uniqueness. -/
theorem setMarkerRef_contract (ms : List (String × MarkerData))
    (mk : MarkerData) (k : String) :
    ((getMarker ms k).isSome → setMarkerRef ms (some mk) k = ms) ∧
    (getMarker ms k = none →
      getMarker (setMarkerRef ms (some mk) k) k = some mk ∧
      ∀ k', k' ≠ k → getMarker (setMarkerRef ms (some mk) k) k' = getMarker ms k') ∧
    (getMarker ms k = none → setMarkerRef ms none k = ms) ∧
    ((getMarker ms k).isSome →
      getMarker (setMarkerRef ms none k) k = none ∧
      ∀ k', k' ≠ k → getMarker (setMarkerRef ms none k) k' = getMarker ms k') ∧
    (∀ m, (ms.map Prod.fst).Nodup →
      ((setMarkerRef ms m k).map Prod.fst).Nodup) := by
  refine ⟨fun h => by simp [setMarkerRef, h], fun h => ?_, fun h => ?_,
    fun h => ?_, fun m hnd => ?_⟩
  · have hn : ¬ (getMarker ms k).isSome := by simp [h]
    rw [setMarkerRef, if_neg hn]
    exact ⟨getMarker_append_self h mk,
      fun k' hk' => getMarker_append_other ms k k' hk' mk⟩
  · have hn : ¬ (getMarker ms k).isSome := by simp [h]
    simp [setMarkerRef, hn]
  · rw [setMarkerRef, if_pos h]
    exact ⟨getMarker_filter_self ms k,
      fun k' hk' => getMarker_filter_other ms k k' hk'⟩
  · cases m with
    | none =>
      by_cases h : (getMarker ms k).isSome
      · rw [setMarkerRef, if_pos h]
        exact ((List.filter_sublist ms).map Prod.fst).nodup hnd
      · rw [setMarkerRef, if_neg h]; exact hnd
    | some m' =>
      by_cases h : (getMarker ms k).isSome
      · rw [setMarkerRef, if_pos h]; exact hnd
      · rw [setMarkerRef, if_neg h]
        have hk : k ∉ ms.map Prod.fst :=
          (getMarker_eq_none_iff ms k).mp (by
            cases hc : getMarker ms k
            · rfl
            · exact absurd (by simp [hc]) h)
        simp only [List.map_append, List.map_cons, List.map_nil]
        rw [List.nodup_append]
        exact ⟨hnd, List.nodup_singleton k, by simpa using hk⟩

/-- C9 witness: on a concrete one-entry registry, upserting the present
key is a no-op, inserting a fresh key binds it, removing the present key
unbinds it, removing an absent key is a no-op, and keys stay nodup. -/
theorem setMarkerRef_contract_witness :
    (setMarkerRef [("A", poiA)] (some poiB) "A" = [("A", poiA)]) ∧
    (getMarker (setMarkerRef [("A", poiA)] (some poiB) "B") "B" = some poiB) ∧
    (setMarkerRef [("A", poiA)] none "B" = [("A", poiA)]) ∧
    (getMarker (setMarkerRef [("A", poiA)] none "A") "A" = none) ∧
    ((setMarkerRef [("A", poiA)] (some poiB) "B").map Prod.fst).Nodup :=
  ⟨(setMarkerRef_contract [("A", poiA)] poiB "A").1 (by decide),
   ((setMarkerRef_contract [("A", poiA)] poiB "B").2.1 (by decide)).1,
   (setMarkerRef_contract [("A", poiA)] poiB "B").2.2.1 (by decide),
   ((setMarkerRef_contract [("A", poiA)] poiB "A").2.2.2.1 (by decide)).1,
   (setMarkerRef_contract [("A", poiA)] poiB "B").2.2.2.2 (some poiB)
     (by decide)⟩

end CommuterPartner
